import Mathlib

/-
Verification development for the microbenthos repository.

The Python sources are shallowly embedded:
  * numeric values are modelled as exact rationals,
  * Python dictionaries are modelled as association lists,
  * raised exceptions are modelled with Except / Option results,
  * sympy expressions are modelled by a small arithmetic AST over
    named symbols, and lambdified evaluation by an environment lookup.
-/

namespace Microbenthos

/-- Association-list lookup, modelling Python dict indexing / dict.get. -/
def alookup {α : Type} : List (String × α) → String → Option α
  | [], _ => none
  | (k, v) :: rest, key => if k = key then some v else alookup rest key

/-- Generic success test for an Except result (true iff the call did not raise). -/
def excOk {α : Type} : Except String α → Bool
  | .ok _ => true
  | .error _ => false

/-- Values flowing through process evaluation: numbers, or nested parameter
mappings (overrides for subprocess responses are mappings stored under the
response name, as in ExprProcess.evaluate). -/
inductive Val : Type where
  | num (q : ℚ)
  | dict (m : List (String × Val))

/-- Numeric view of a value; arithmetic on a mapping raises a TypeError in
Python, which is modelled by returning none. -/
def Val.asNum : Val → Option ℚ
  | .num q => some q
  | .dict _ => none

/-- The arithmetic AST modelling a parsed sympy expression (process.py uses
sympify on the formula string; parsing itself is outside the embedding, so a
formula enters as its parsed tree). -/
inductive Expr : Type where
  | const (q : ℚ)
  | sym (n : String)
  | add (a b : Expr)
  | mul (a b : Expr)
  | sub (a b : Expr)
  | neg (a : Expr)
deriving Repr, DecidableEq

/-- The free symbols of an expression: the Symbol atoms of expr.atoms() in
ExprProcess._lambdify. -/
def Expr.freeSymbols : Expr → List String
  | .const _ => []
  | .sym n => [n]
  | .add a b => a.freeSymbols ++ b.freeSymbols
  | .mul a b => a.freeSymbols ++ b.freeSymbols
  | .sub a b => a.freeSymbols ++ b.freeSymbols
  | .neg a => a.freeSymbols

/-- Numeric evaluation of the lambdified expression under an argument
environment. A missing symbol is a NameError, and arithmetic on a mapping a
TypeError: both give none. A bare symbol returns whatever value is bound. -/
def evalExpr : Expr → List (String × Val) → Option Val
  | .const q, _ => some (.num q)
  | .sym n, env => alookup env n
  | .add a b, env => do
      let x ← (← evalExpr a env).asNum
      let y ← (← evalExpr b env).asNum
      pure (.num (x + y))
  | .mul a b, env => do
      let x ← (← evalExpr a env).asNum
      let y ← (← evalExpr b env).asNum
      pure (.num (x * y))
  | .sub a b, env => do
      let x ← (← evalExpr a env).asNum
      let y ← (← evalExpr b env).asNum
      pure (.num (x - y))
  | .neg a, env => do
      let x ← (← evalExpr a env).asNum
      pure (.num (-x))

/-- ExprProcess after construction: the parsed formula, the declared variable
names, the declared parameters (an ordered mapping), and the response
subprocesses (an ordered mapping of name to process). -/
inductive ExprProcess : Type where
  | mk (expr : Expr) (varnames : List String) (params : List (String × Val))
       (responses : List (String × ExprProcess))

def ExprProcess.expr : ExprProcess → Expr
  | .mk e _ _ _ => e

def ExprProcess.varnames : ExprProcess → List String
  | .mk _ v _ _ => v

def ExprProcess.params : ExprProcess → List (String × Val)
  | .mk _ _ p _ => p

def ExprProcess.responses : ExprProcess → List (String × ExprProcess)
  | .mk _ _ _ r => r

/-- Validity of a declared name, modelling that check_names sympifies each
name and that symbols/lambdify require a plain identifier. -/
def isValidName (s : String) : Bool :=
  match s.toList with
  | [] => false
  | c :: rest => (c.isAlpha || c = '_') && rest.all (fun d => d.isAlphanum || d = '_')

/-- ExprProcess.__init__ followed by ExprProcess._lambdify, as far as it can
raise. In order: check_names on params, varnames and responses raises
ValueError on an improper name; _lambdify raises ValueError when some declared
argument symbol is absent from the atoms of the expression (the mismatched
set); finally lambdify itself raises a SyntaxError when the argument list has
duplicate names (a generated function with a duplicate argument). Response
subprocesses enter already constructed. -/
def ExprProcess.make (formula : Expr) (varnames : List String)
    (params : List (String × Val)) (responses : List (String × ExprProcess)) :
    Except String ExprProcess :=
  if ¬ (params.all (fun kv => isValidName kv.1)) then
    .error "Improper names found in params"
  else if ¬ (varnames.all isValidName) then
    .error "Improper names found in varnames"
  else if ¬ (responses.all (fun kv => isValidName kv.1)) then
    .error "Improper names found in responses"
  else
    let argnames := varnames ++ params.map Prod.fst
    let mismatched := argnames.filter (fun a => decide (a ∉ formula.freeSymbols))
    if ¬ mismatched.isEmpty then
      .error "Expression and var/params mismatch!"
    else if ¬ argnames.Nodup then
      .error "duplicate argument in generated lambda"
    else
      .ok (.mk formula varnames params responses)

/-- The effective parameter mapping used by ExprProcess.evaluate: None becomes
an empty dict, and a falsy P (empty dict, or the number 0) is replaced by the
declared params; a truthy number cannot be indexed by parameter names, which
is a TypeError. -/
def effMap (params : List (String × Val)) : Option Val → Option (List (String × Val))
  | none => some params
  | some (.dict []) => some params
  | some (.dict m) => some m
  | some (.num q) => if q = 0 then some params else none

/-- Collect varargs from the domain mapping D and pargs from the effective
parameter mapping, in declaration order; a missing key is a KeyError. -/
def buildArgs (varnames paramKeys : List String)
    (D Pm : List (String × Val)) : Option (List (String × Val)) := do
  let va ← varnames.mapM (fun n => (alookup D n).map (fun v => (n, v)))
  let pa ← paramKeys.mapM (fun k => (alookup Pm k).map (fun v => (k, v)))
  pure (va ++ pa)

/-- Numeric multiplication of two values (operator.mul); a mapping operand is
a TypeError. -/
def vmul (a b : Val) : Option Val :=
  match a.asNum, b.asNum with
  | some x, some y => some (.num (x * y))
  | _, _ => none

/-- reduce(operator.mul, x :: rest): left fold starting from the first
element. -/
def reduceMul (x : Val) : List Val → Option Val
  | [] => some x
  | y :: ys =>
    match vmul x y with
    | none => none
    | some z => reduceMul z ys

/-- The tail of ExprProcess.evaluate: multiply the own result with the reduced
product of the response results, or return it unchanged when there are none. -/
def applyResponses (evaled : Val) : List Val → Option Val
  | [] => some evaled
  | r :: rs =>
    match reduceMul r rs with
    | none => none
    | some p => vmul evaled p

mutual

/-- ExprProcess.evaluate: build the argument list from D and the effective
parameter mapping, call the lambdified expression, and when full is true also
evaluate every response (with P.get of the response name as its override) and
multiply the results in. -/
def ExprProcess.evaluate : ExprProcess → List (String × Val) → Option Val → Bool → Option Val
  | .mk expr varnames params responses, D, P, full =>
    match effMap params P with
    | none => none
    | some Pm =>
      match buildArgs varnames (params.map Prod.fst) D Pm with
      | none => none
      | some env =>
        match evalExpr expr env with
        | none => none
        | some evaled =>
          if full then
            match evalResponses responses D Pm with
            | none => none
            | some rs => applyResponses evaled rs
          else
            some evaled

/-- Evaluate the responses in order, each with full=True and with the parent
effective mapping looked up at the response name as its parameter override. -/
def evalResponses : List (String × ExprProcess) → List (String × Val) → List (String × Val) → Option (List Val)
  | [], _, _ => some []
  | (n, r) :: rest, D, Pm =>
    match r.evaluate D (alookup Pm n) true, evalResponses rest D Pm with
    | some v, some vs => some (v :: vs)
    | _, _ => none

end

/-- The override a response receives from a parent evaluated with override P:
the effective parameter mapping looked up at the response name. -/
def respOverride (p : ExprProcess) (P : Option Val) (n : String) : Option Val :=
  match effMap p.params P with
  | none => none
  | some Pm => alookup Pm n

/-! ## SedimentDBLDomain (domain.py)

Lengths are PhysicalField quantities in mm; they are modelled by exact
rationals carrying the mm magnitude. The fipy mesh is modelled by its cell
count, and a registered CellVariable by its list of cell values (the float32
ones-broadcast in create_var is value preserving). -/

structure SedimentDBLDomain where
  cell_size : ℚ
  sediment_length : ℚ
  DBL_length : ℚ
  sediment_Ncells : ℕ
  DBL_Ncells : ℕ
  domain_Ncells : ℕ
  idx_surface : ℕ
  mesh : Option ℕ
  sediment_porosity : Option ℚ
  VARS : List (String × List ℚ)
deriving Repr, DecidableEq

/-- A value accepted by create_var: a scalar (or 0-d array), or a 1-d array
of cell values. -/
inductive VarValue : Type where
  | scalar (q : ℚ)
  | arr (xs : List ℚ)
deriving Repr, DecidableEq

/-- SedimentDBLDomain.create_var: requires a mesh and a fresh nonempty name;
a None value becomes 0.0; the value is broadcast against ones of the mesh
shape, so a scalar becomes a constant array and an array must already have
the mesh shape; the new array is registered in VARS and returned. -/
def SedimentDBLDomain.create_var (d : SedimentDBLDomain) (name : String)
    (value : Option VarValue) : Except String (List ℚ × SedimentDBLDomain) :=
  match d.mesh with
  | none => .error "Cannot create cell variable without mesh!"
  | some n =>
    if name = "" then .error "Name must have len > 0"
    else if (alookup d.VARS name).isSome then
      .error "Domain variable already exists!"
    else
      match value.getD (.scalar 0) with
      | .scalar q =>
        let a := List.replicate n q
        .ok (a, { d with VARS := d.VARS ++ [(name, a)] })
      | .arr xs =>
        if xs.length = n then
          .ok (xs, { d with VARS := d.VARS ++ [(name, xs)] })
        else
          .error "Value shape not compatible for mesh"

/-- The array written by the two slice assignments of set_porosity: cells
below the surface index get 1.0 and the cells from the surface index on get
the sediment porosity (Python slices clamp, so the old length is kept). -/
def applyPorosity (idx : ℕ) (p : ℚ) (arr : List ℚ) : List ℚ :=
  (List.range arr.length).map (fun i => if i < idx then 1 else p)

/-- Replace the array bound to a registered name, modelling in-place mutation
of the registered CellVariable. -/
def setVar (m : List (String × List ℚ)) (k : String) (v : List ℚ) :
    List (String × List ℚ) :=
  m.map (fun kv => if kv.1 = k then (k, v) else kv)

/-- SedimentDBLDomain.set_porosity: the value must lie strictly between 0.1
and 0.9; the porosity variable is created on first use; the DBL region is set
to 1.0 and the sediment region to the value. Returns the porosity array and
the updated domain. -/
def SedimentDBLDomain.set_porosity (d : SedimentDBLDomain) (porosity : ℚ) :
    Except String (List ℚ × SedimentDBLDomain) :=
  if ¬ (1/10 < porosity ∧ porosity < 9/10) then
    .error "Sediment porosity should be between (0.1, 0.9)"
  else
    match alookup d.VARS "porosity" with
    | some arr =>
      let newArr := applyPorosity d.idx_surface porosity arr
      .ok (newArr, { d with sediment_porosity := some porosity,
                            VARS := setVar d.VARS "porosity" newArr })
    | none =>
      (d.create_var "porosity" (some (.scalar 1))).bind (fun pr =>
        let newArr := applyPorosity pr.2.idx_surface porosity pr.1
        .ok (newArr, { pr.2 with sediment_porosity := some porosity,
                                 VARS := setVar pr.2.VARS "porosity" newArr }))

/-- SedimentDBLDomain.__init__: asserts a positive sediment length, a
nonnegative DBL length and a sediment column of at least 10 cells (a zero
cell size is a division error); cell counts are int() truncations of the
length ratios (nonnegative here, so a floor); the lengths are re-derived from
the counts; the surface index is the DBL cell count; the mesh is created with
the total cell count, and set_porosity is called with the porosity argument. -/
def SedimentDBLDomain.make (cell_size sediment_length dbl_length porosity : ℚ) :
    Except String SedimentDBLDomain :=
  if ¬ (0 < sediment_length) then .error "Sediment length should be positive"
  else if ¬ (0 ≤ dbl_length) then .error "DBL length should be positive or zero"
  else if cell_size = 0 then .error "division by zero"
  else if ¬ ((10 : ℚ) ≤ sediment_length / cell_size) then
    .error "Sediment length too small for cell size"
  else
    let sedN : ℕ := (⌊sediment_length / cell_size⌋).toNat
    let dblN : ℕ := (⌊dbl_length / cell_size⌋).toNat
    let d0 : SedimentDBLDomain :=
      { cell_size := cell_size
        sediment_length := sedN * cell_size
        DBL_length := dblN * cell_size
        sediment_Ncells := sedN
        DBL_Ncells := dblN
        domain_Ncells := sedN + dblN
        idx_surface := dblN
        mesh := some (sedN + dblN)
        sediment_porosity := none
        VARS := [] }
    (d0.set_porosity porosity).map Prod.snd

/-! ## Entity and DomainEntity (core/entity.py, entity.py) -/

/-- DomainEntity state: the private domain slot, None until attached. -/
structure DomainEntity where
  _domain : Option SedimentDBLDomain
deriving Repr, DecidableEq

/-- The domain property setter: None returns immediately; a second attachment
is a RuntimeError; otherwise the reference is stored. A SedimentDBLDomain
instance is always truthy, so the if self.domain test is an is-set test. -/
def DomainEntity.setDomain (e : DomainEntity) (d : Option SedimentDBLDomain) :
    Except String DomainEntity :=
  match d with
  | none => .ok e
  | some dv =>
    match e._domain with
    | some _ => .error "already has a domain. Cannot set again!"
    | none => .ok { e with _domain := some dv }

/-- Configuration values in an entity config dictionary. -/
inductive DVal : Type where
  | str (s : String)
  | num (q : ℚ)
  | dict (m : List (String × DVal))

/-- dict.pop(key): remove the entry and return its value together with the
remaining dictionary, or nothing when the key is absent. -/
def dpop {α : Type} : List (String × α) → String → Option (α × List (String × α))
  | [], _ => none
  | (k, v) :: rest, key =>
    if k = key then some (v, rest)
    else (dpop rest key).map (fun pr => (pr.1, (k, v) :: pr.2))

/-- The classes importlib can resolve in this repository, as module and class
name pairs; a bare class name resolves against the microbenthos package. -/
def knownClasses : List (String × String) :=
  [("microbenthos", "Entity"), ("microbenthos", "DomainEntity"),
   ("microbenthos", "Variable"), ("microbenthos", "Process"),
   ("microbenthos", "ExprProcess"), ("microbenthos", "SedimentDBLDomain"),
   ("microbenthos", "Irradiance"),
   ("microbenthos.process", "ExprProcess"),
   ("microbenthos.domain", "SedimentDBLDomain"),
   ("microbenthos.irradiance", "Irradiance")]

/-- The outcome of Entity.from_params: the resolved class with the init and
post parameters it was given (instantiation itself is class specific and not
further modelled). -/
structure ConstructedEntity where
  cls_module : String
  cls_name : String
  init_params : DVal
  post_params : DVal

/-- Entity.from_params: rsplit the path on the last dot, defaulting the
module to microbenthos for a bare name; a failed import or attribute lookup
is a TypeError. -/
def Entity.from_params (clsPath : String) (init post : DVal) :
    Except String ConstructedEntity :=
  let parts := clsPath.splitOn "."
  let pair :=
    if parts.length ≤ 1 then ("microbenthos", clsPath)
    else (String.intercalate "." parts.dropLast, parts.getLastD clsPath)
  if knownClasses.contains pair then
    .ok { cls_module := pair.1, cls_name := pair.2,
          init_params := init, post_params := post }
  else
    .error "Class could not be found!"

/-- Entity.from_dict: pop the cls key from the supplied dictionary (KeyError
when absent), read init_params and post_params with empty defaults from what
remains, and delegate to from_params. The returned dictionary is the popped
one, modelling the in-place mutation of the caller dictionary. -/
def Entity.from_dict (cdict : List (String × DVal)) :
    Except String (ConstructedEntity × List (String × DVal)) :=
  match dpop cdict "cls" with
  | none => .error "Config dict missing required key cls!"
  | some (clsVal, rest) =>
    match clsVal with
    | .str path =>
      (Entity.from_params path
        ((alookup rest "init_params").getD (.dict []))
        ((alookup rest "post_params").getD (.dict []))).map (fun e => (e, rest))
    | _ => .error "cls value is not a string path"

/-! ## Variable (core/entity.py) -/

/-- A constraint value as received by Variable.check_constraints: a plain
number, a PhysicalField (float is taken of its magnitude), a string (numeric
strings parse, others raise), or an array (float succeeds exactly on a single
element). -/
inductive CVal : Type where
  | num (q : ℚ)
  | physical (q : ℚ)
  | strNum (q : ℚ)
  | strBad (s : String)
  | arrv (xs : List ℚ)
deriving Repr, DecidableEq

/-- The float() reduction applied to a constraint value; none models the
exception raised when the value is not reducible to one scalar. -/
def CVal.toFloat : CVal → Option ℚ
  | .num q => some q
  | .physical q => some q
  | .strNum q => some q
  | .strBad _ => none
  | .arrv [x] => some x
  | .arrv _ => none

/-- The recognized constraint locations. -/
def validLocs : List String := ["top", "bottom", "dbl", "sediment"]

/-- The per-entry loop of check_constraints: an unknown location or a value
that float() cannot reduce raises a ValueError. -/
def checkEntries : List (String × CVal) → Except String Unit
  | [] => .ok ()
  | (loc, v) :: rest =>
    if ¬ validLocs.contains loc then
      .error "Constraint loc unknown"
    else
      match v.toFloat with
      | none => .error "Constraint should be single-valued"
      | some _ => checkEntries rest

/-- The argument handed to check_constraints: a mapping, or something that
dict() cannot iterate as key value pairs. -/
inductive ConstraintsArg : Type where
  | mapping (m : List (String × CVal))
  | notMapping (desc : String)

/-- Variable.check_constraints: a non-mapping raises a ValueError, then every
entry is checked in order. -/
def check_constraints : ConstraintsArg → Except String Unit
  | .notMapping _ => .error "Constraints should be mapping of location value pairs!"
  | .mapping m => checkEntries m

/-- The creation parameters of a Variable (the create dict): the value handed
to domain.create_var and the hasOld retention flag. The unit checks act on
the external unit system and carry no state. -/
structure CreateParams where
  value : Option VarValue
  hasOld : Bool
deriving Repr, DecidableEq

/-- A seed profile for Variable.seed. The linear profile is numerix.linspace
from start to stop over the cell count. The normal profile computes a real
valued Gaussian bell outside this rational embedding; the claims quantify
over seed specs only through presence and ordering, which is profile
independent, so only the linear profile is embedded. -/
inductive SeedProfile : Type where
  | linear (start stop : ℚ)
deriving Repr, DecidableEq

/-- numerix.linspace over n cells. -/
def linspace (s t : ℚ) (n : ℕ) : List ℚ :=
  if n = 0 then []
  else if n = 1 then [s]
  else (List.range n).map (fun i => s + (t - s) * i / (n - 1))

/-- The bound fipy variable of a Variable: its cell values and, when old
values are retained, the old snapshot. -/
structure VarState where
  value : List ℚ
  old : Option (List ℚ)
deriving Repr, DecidableEq

/-- Observable steps of Variable.setup, in the order they are executed:
variable creation, seeding, the updateOld snapshot, a redundant-pair warning,
and one constrain call per configured constraint. -/
inductive SetupEvent : Type where
  | created (arr : List ℚ)
  | seeded (arr : List ℚ)
  | oldUpdated (arr : List ℚ)
  | warned (loc1 loc2 : String)
  | constrained (loc : String) (value : CVal)
deriving Repr, DecidableEq

def SetupEvent.isSeeded : SetupEvent → Bool
  | .seeded _ => true
  | _ => false

/-- There is a constrained event that some seeded event follows: the order
violation the setup contract rules out. -/
def constrainedBeforeSeeded : List SetupEvent → Bool
  | [] => false
  | .constrained _ _ :: rest =>
    rest.any SetupEvent.isSeeded || constrainedBeforeSeeded rest
  | _ :: rest => constrainedBeforeSeeded rest

/-- Variable entity state: the configuration taken at construction and the
mutable domain and variable slots. -/
structure MVariable where
  name : String
  create_params : CreateParams
  constraints : List (String × CVal)
  seed_params : Option SeedProfile
  _domain : Option SedimentDBLDomain
  var : Option VarState
deriving Repr, DecidableEq

/-- Variable.__init__: check_create carries no state here (the create dict is
structured so it cannot contain a name), check_constraints validates the
constraints, and the configuration is stored with no domain and no variable. -/
def MVariable.make (name : String) (create : CreateParams)
    (constraints : List (String × CVal)) (seed : Option SeedProfile) :
    Except String MVariable :=
  (check_constraints (.mapping constraints)).map (fun _ =>
    { name := name, create_params := create, constraints := constraints,
      seed_params := seed, _domain := none, var := none })

/-- The redundant constraint pairs setup warns about. -/
def invalidPairs : List (String × String) := [("top", "dbl"), ("bottom", "sediment")]

/-- The constrain loop of Variable.setup: each location is resolved against
the location masks (an unknown location would be a KeyError turned
ValueError) and the fipy constrain call is recorded. -/
def applyConstraints : List (String × CVal) → Except String (List SetupEvent)
  | [] => .ok []
  | (loc, val) :: rest =>
    if validLocs.contains loc then
      (applyConstraints rest).map (fun evs => SetupEvent.constrained loc val :: evs)
    else
      .error "loc not in LOCs"

/-- The variable state and events of the seeding phase of Variable.setup:
without a seed spec the state is the freshly created one (old a copy of the
initial value when hasOld is set); with a seed spec the value is seeded and,
when hasOld is requested, updateOld snapshots the seeded value (without
hasOld the old slot is the initial none either way). -/
def seedStepOf (seed : Option SeedProfile) (hasOld : Bool) (arr : List ℚ) :
    VarState × List SetupEvent :=
  match seed with
  | none => ({ value := arr, old := if hasOld then some arr else none }, [])
  | some (.linear s t) =>
    let seeded := linspace s t arr.length
    if hasOld then
      ({ value := seeded, old := some seeded },
       [.seeded seeded, .oldUpdated seeded])
    else
      ({ value := seeded, old := none }, [.seeded seeded])

/-- The warnings setup emits for the redundant constraint pairs. -/
def warnEventsOf (constraints : List (String × CVal)) : List SetupEvent :=
  invalidPairs.filterMap (fun pq =>
    if (alookup constraints pq.1).isSome && (alookup constraints pq.2).isSome then
      some (.warned pq.1 pq.2)
    else none)

/-- Variable.setup: check_domain raises without an attached domain; the
variable is created through domain.create_var; a present seed spec seeds the
array and, when hasOld is requested, updateOld snapshots the seeded value;
the redundant constraint pairs produce warnings; finally every configured
constraint is applied in order. The event list records the execution order. -/
def MVariable.setup (v : MVariable) :
    Except String (MVariable × List SetupEvent) :=
  match v._domain with
  | none => .error "Domain required for setup"
  | some dom =>
    (dom.create_var v.name v.create_params.value).bind (fun pr =>
      (applyConstraints v.constraints).map (fun constrEvents =>
        ({ v with _domain := some pr.2,
                  var := some (seedStepOf v.seed_params v.create_params.hasOld pr.1).1 },
         SetupEvent.created pr.1 ::
           ((seedStepOf v.seed_params v.create_params.hasOld pr.1).2 ++
             (warnEventsOf v.constraints ++ constrEvents)))))

/-! ## Concrete instances used by witnesses -/

/-- The porosity array of the 110 cell test domain. -/
def testPorosityArr : List ℚ := applyPorosity 10 (3/5) (List.replicate 110 1)

/-- The domain built from cell_size 0.1 mm, sediment 10 mm, DBL 1 mm and
porosity 0.6. -/
def testDomain : SedimentDBLDomain :=
  { cell_size := 1/10
    sediment_length := 10
    DBL_length := 1
    sediment_Ncells := 100
    DBL_Ncells := 10
    domain_Ncells := 110
    idx_surface := 10
    mesh := some 110
    sediment_porosity := some (3/5)
    VARS := [("porosity", testPorosityArr)] }

lemma testDomain_make : SedimentDBLDomain.make (1/10) 10 1 (3/5) = .ok testDomain := by
  with_unfolding_all rfl

/-! ## Shared association-list lemmas -/

lemma alookup_eq_none {α : Type} (m : List (String × α)) (k : String) :
    alookup m k = none ↔ k ∉ m.map Prod.fst := by
  induction m with
  | nil => simp [alookup]
  | cons kv rest ih =>
    obtain ⟨k0, v0⟩ := kv
    by_cases hk : k0 = k
    · subst hk
      simp [alookup]
    · simp [alookup, hk, ih, Ne.symm hk]

lemma dpop_some_alookup {α : Type} {m : List (String × α)} {k : String}
    {v : α} {rest : List (String × α)}
    (h : dpop m k = some (v, rest)) (hnd : (m.map Prod.fst).Nodup) :
    alookup rest k = none := by
  induction m generalizing v rest with
  | nil => simp [dpop] at h
  | cons kv tail ih =>
    obtain ⟨k0, v0⟩ := kv
    simp only [List.map_cons, List.nodup_cons] at hnd
    by_cases hk : k0 = k
    · subst hk
      rw [dpop, if_pos rfl] at h
      cases h
      exact (alookup_eq_none tail k0).mpr hnd.1
    · rw [dpop, if_neg hk] at h
      cases hd : dpop tail k with
      | none => rw [hd] at h; simp at h
      | some pr =>
        obtain ⟨v1, rest1⟩ := pr
        rw [hd] at h
        simp only [Option.map, Option.some.injEq, Prod.mk.injEq] at h
        obtain ⟨h1, h2⟩ := h
        subst h2
        rw [alookup, if_neg hk]
        exact ih hd hnd.2

lemma dpop_none_of_alookup_none {α : Type} {m : List (String × α)} {k : String}
    (h : alookup m k = none) : dpop m k = none := by
  induction m with
  | nil => rfl
  | cons kv tail ih =>
    obtain ⟨k0, v0⟩ := kv
    by_cases hk : k0 = k
    · subst hk
      rw [alookup, if_pos rfl] at h
      exact (Option.some_ne_none _ h).elim
    · rw [alookup, if_neg hk] at h
      rw [dpop, if_neg hk, ih h]
      rfl

lemma alookup_setVar_self {m : List (String × List ℚ)} {k : String} {a : List ℚ}
    (h : alookup m k = some a) (v : List ℚ) :
    alookup (setVar m k v) k = some v := by
  induction m with
  | nil => simp [alookup] at h
  | cons kv tail ih =>
    obtain ⟨k0, v0⟩ := kv
    rw [setVar, List.map_cons]
    by_cases hk : k0 = k
    · rw [if_pos hk, alookup, if_pos rfl]
    · rw [alookup, if_neg hk] at h
      rw [if_neg hk, alookup, if_neg hk]
      exact ih h

/-! ## Claim C3 -/

/-- C3: for every DomainEntity, attaching a domain while one is already set
fails with a RuntimeError and a successful call never replaces or clears an
existing domain reference, while attaching None is a no-op that never
raises. -/
theorem c3_domain_attach_once (e : DomainEntity) (d0 d1 : SedimentDBLDomain) :
    (e.setDomain none = .ok e) ∧
    (e._domain = some d0 →
      e.setDomain (some d1) = .error "already has a domain. Cannot set again!") ∧
    (∀ (d : Option SedimentDBLDomain) (e' : DomainEntity),
      e.setDomain d = .ok e' → e._domain = some d0 → e'._domain = some d0) := by
  refine ⟨rfl, ?_, ?_⟩
  · intro h
    simp [DomainEntity.setDomain, h]
  · intro d e' hs hd
    cases d with
    | none =>
      simp only [DomainEntity.setDomain] at hs
      cases hs
      exact hd
    | some dv =>
      simp only [DomainEntity.setDomain, hd] at hs
      exact Except.noConfusion hs

/-- C3 witness: a concrete attached entity rejects a second attachment, and
attaching None to it is an accepted no-op. -/
theorem c3_domain_attach_once_witness :
    (DomainEntity.mk (some testDomain)).setDomain (some testDomain) =
      .error "already has a domain. Cannot set again!" ∧
    (DomainEntity.mk (some testDomain)).setDomain none =
      .ok (DomainEntity.mk (some testDomain)) :=
  ⟨(c3_domain_attach_once ⟨some testDomain⟩ testDomain testDomain).2.1 rfl,
   (c3_domain_attach_once ⟨some testDomain⟩ testDomain testDomain).1⟩

/-! ## Claim C9 -/

/-- C9: in ExprProcess.evaluate an explicit empty parameter override behaves
exactly like None: both are falsy, so the declared parameters are used. -/
theorem c9_empty_override_like_none (p : ExprProcess) (D : List (String × Val))
    (full : Bool) :
    p.evaluate D (some (.dict [])) full = p.evaluate D none full := by
  cases p with
  | mk e vn ps rs =>
    simp only [ExprProcess.evaluate, effMap]

/-! ## Claim C1 -/

/-- C1 counterexample: the formula a*b with only a declared succeeds at
construction, although the claim says a symbol referenced in the formula but
not declared makes construction fail. -/
theorem c1_counterexample_undeclared_symbol_ok :
    ExprProcess.make (.mul (.sym "a") (.sym "b")) ["a"] [] [] =
      .ok (.mk (.mul (.sym "a") (.sym "b")) ["a"] [] []) := by
  with_unfolding_all rfl

/-- C1 (amended): with proper, duplicate-free declared names, construction
succeeds exactly when every declared variable or parameter name appears among
the free symbols of the formula; a formula symbol that is not declared is not
checked at construction (it surfaces only at evaluation). -/
theorem c1_make_checks_only_declared_names
    (formula : Expr) (varnames : List String) (params : List (String × Val))
    (responses : List (String × ExprProcess))
    (hp : params.all (fun kv => isValidName kv.1) = true)
    (hv : varnames.all isValidName = true)
    (hr : responses.all (fun kv => isValidName kv.1) = true)
    (hnd : (varnames ++ params.map Prod.fst).Nodup) :
    excOk (ExprProcess.make formula varnames params responses) = true ↔
      ∀ n ∈ varnames ++ params.map Prod.fst, n ∈ formula.freeSymbols := by
  unfold ExprProcess.make
  rw [if_neg (not_not_intro hp), if_neg (not_not_intro hv), if_neg (not_not_intro hr)]
  by_cases hm :
      ((varnames ++ params.map Prod.fst).filter
        (fun a => decide (a ∉ formula.freeSymbols))).isEmpty = true
  · rw [if_neg (not_not_intro hm), if_neg (not_not_intro hnd)]
    constructor
    · intro _ n hn
      rw [List.isEmpty_iff, List.filter_eq_nil_iff] at hm
      have := hm n hn
      simpa using this
    · intro _
      rfl
  · rw [if_pos hm]
    constructor
    · intro hx
      exact absurd hx (by simp [excOk])
    · intro hall
      exfalso
      apply hm
      rw [List.isEmpty_iff, List.filter_eq_nil_iff]
      intro n hn
      simpa using hall n hn

/-- C1 (amended) witness: the formula a with declared names a and c fails at
construction, since c does not appear among the free symbols. -/
theorem c1_make_checks_only_declared_names_witness :
    excOk (ExprProcess.make (.sym "a") ["a", "c"] [] []) = false := by
  have h := c1_make_checks_only_declared_names (.sym "a") ["a", "c"] [] []
    (by rfl) (by with_unfolding_all rfl) (by rfl) (by simp)
  cases hx : excOk (ExprProcess.make (.sym "a") ["a", "c"] [] []) with
  | false => rfl
  | true =>
    have hall := h.mp hx
    have := hall "c" (by simp)
    simp [Expr.freeSymbols] at this

/-! ## Claim C10 -/

/-- C10: a successful Entity.from_dict removes the cls key from the supplied
dictionary, so a second call on the very same dictionary fails with the
missing cls KeyError. -/
theorem c10_from_dict_pops_cls (cdict : List (String × DVal))
    (e : ConstructedEntity) (rest : List (String × DVal))
    (hnd : (cdict.map Prod.fst).Nodup)
    (h : Entity.from_dict cdict = .ok (e, rest)) :
    alookup rest "cls" = none ∧
    Entity.from_dict rest = .error "Config dict missing required key cls!" := by
  unfold Entity.from_dict at h
  cases hp : dpop cdict "cls" with
  | none =>
    rw [hp] at h
    simp at h
  | some pr =>
    obtain ⟨clsVal, rest0⟩ := pr
    rw [hp] at h
    cases clsVal with
    | str path =>
      simp only at h
      have hrest : rest = rest0 := by
        cases hf : Entity.from_params path
            ((alookup rest0 "init_params").getD (.dict []))
            ((alookup rest0 "post_params").getD (.dict [])) with
        | ok e0 =>
          rw [hf] at h
          simp [Except.map] at h
          exact h.2.symm
        | error s =>
          rw [hf] at h
          simp [Except.map] at h
      subst hrest
      have hnone : alookup rest "cls" = none := dpop_some_alookup hp hnd
      refine ⟨hnone, ?_⟩
      unfold Entity.from_dict
      rw [dpop_none_of_alookup_none hnone]
    | num q => simp at h
    | dict m => simp at h

/-- C10 witness: a concrete config dict resolving the Irradiance class is
consumed by from_dict and the leftover dictionary fails the second call. -/
theorem c10_from_dict_pops_cls_witness :
    alookup ([] : List (String × DVal)) "cls" = none ∧
    Entity.from_dict ([] : List (String × DVal)) =
      .error "Config dict missing required key cls!" :=
  c10_from_dict_pops_cls [("cls", .str "Irradiance")]
    { cls_module := "microbenthos", cls_name := "Irradiance",
      init_params := .dict [], post_params := .dict [] } []
    (by simp) (by with_unfolding_all rfl)

/-! ## Claim C6 -/

lemma checkEntries_error_of_bad {m : List (String × CVal)} {loc : String} {v : CVal}
    (hmem : (loc, v) ∈ m)
    (hbad : validLocs.contains loc = false ∨ v.toFloat = none) :
    excOk (checkEntries m) = false := by
  induction m with
  | nil => simp at hmem
  | cons kv rest ih =>
    obtain ⟨l0, v0⟩ := kv
    rw [checkEntries]
    by_cases hl : validLocs.contains l0 = true
    · rw [if_neg (not_not_intro hl)]
      cases hv0 : CVal.toFloat v0 with
      | none => rfl
      | some q =>
        rcases List.mem_cons.mp hmem with heq | hmem2
        · exfalso
          cases heq
          rcases hbad with hb | hb
          · rw [hb] at hl
            exact Bool.noConfusion hl
          · rw [hb] at hv0
            exact Option.noConfusion hv0
        · exact ih hmem2
    · rw [if_pos hl]
      rfl

/-- C6: check_constraints rejects a non-mapping, rejects any entry whose
location is outside the recognized set, and rejects any entry whose value
cannot be reduced to a single scalar. -/
theorem c6_check_constraints_rejections (desc : String)
    (m : List (String × CVal)) (loc : String) (v : CVal) :
    excOk (check_constraints (.notMapping desc)) = false ∧
    ((loc, v) ∈ m → validLocs.contains loc = false →
      excOk (check_constraints (.mapping m)) = false) ∧
    ((loc, v) ∈ m → v.toFloat = none →
      excOk (check_constraints (.mapping m)) = false) := by
  refine ⟨rfl, ?_, ?_⟩
  · intro hm hl
    exact checkEntries_error_of_bad hm (Or.inl hl)
  · intro hm hv
    exact checkEntries_error_of_bad hm (Or.inr hv)

/-- C6 witness: an unknown location middle, a two element array value, and a
non-mapping argument each make check_constraints raise. -/
theorem c6_check_constraints_rejections_witness :
    excOk (check_constraints (.notMapping "a plain string")) = false ∧
    excOk (check_constraints (.mapping [("middle", .num 1)])) = false ∧
    excOk (check_constraints (.mapping [("top", .arrv [1, 2])])) = false :=
  ⟨(c6_check_constraints_rejections "a plain string" [] "x" (.num 0)).1,
   (c6_check_constraints_rejections "" [("middle", .num 1)] "middle" (.num 1)).2.1
     (by simp) (by with_unfolding_all rfl),
   (c6_check_constraints_rejections "" [("top", .arrv [1, 2])] "top" (.arrv [1, 2])).2.2
     (by simp) (by rfl)⟩

/-! ## Claim C2 -/

lemma evalResponses_eq_mapM (rs : List (String × ExprProcess))
    (D Pm : List (String × Val)) :
    evalResponses rs D Pm =
      rs.mapM (fun nr => nr.2.evaluate D (alookup Pm nr.1) true) := by
  induction rs with
  | nil => rfl
  | cons nr rest ih =>
    obtain ⟨n, r⟩ := nr
    rw [List.mapM_cons, ← ih]
    cases he : r.evaluate D (alookup Pm n) true with
    | none => simp [evalResponses, he]
    | some v =>
      cases hr : evalResponses rest D Pm with
      | none => simp [evalResponses, he, hr]
      | some vs => simp [evalResponses, he, hr]

/-- C2: evaluate with full=True equals evaluate with full=False multiplied by
the reduced product of the response evaluations, each response receiving the
effective parameter mapping looked up at its name as override; with no
responses the two calls agree. -/
theorem c2_evaluate_composition (p : ExprProcess) (D : List (String × Val))
    (P : Option Val) :
    (p.evaluate D P true =
      (p.evaluate D P false).bind (fun evaled =>
        (p.responses.mapM
            (fun nr : String × ExprProcess =>
              nr.2.evaluate D (respOverride p P nr.1) true)).bind
          (fun rs => applyResponses evaled rs))) ∧
    (p.responses = [] → p.evaluate D P true = p.evaluate D P false) := by
  cases p with
  | mk e vn ps rs =>
    have h1 : (ExprProcess.mk e vn ps rs).evaluate D P true =
        ((ExprProcess.mk e vn ps rs).evaluate D P false).bind (fun evaled =>
          (rs.mapM (fun nr : String × ExprProcess => nr.2.evaluate D
              (respOverride (ExprProcess.mk e vn ps rs) P nr.1) true)).bind
            (fun rsv => applyResponses evaled rsv)) := by
      cases hm : effMap ps P with
      | none =>
        simp [ExprProcess.evaluate, hm]
      | some Pm =>
        have hov : ∀ nr : String × ExprProcess,
            respOverride (ExprProcess.mk e vn ps rs) P nr.1 = alookup Pm nr.1 := by
          intro nr
          rw [respOverride, ExprProcess.params, hm]
        simp only [hov]
        rw [← evalResponses_eq_mapM]
        cases hb : buildArgs vn (ps.map Prod.fst) D Pm with
        | none => simp [ExprProcess.evaluate, hm, hb]
        | some env =>
          cases he : evalExpr e env with
          | none => simp [ExprProcess.evaluate, hm, hb, he]
          | some evaled =>
            cases hr : evalResponses rs D Pm with
            | none => simp [ExprProcess.evaluate, hm, hb, he, hr]
            | some rsv => simp [ExprProcess.evaluate, hm, hb, he, hr]
    refine ⟨h1, ?_⟩
    intro hrs
    have hrs2 : rs = [] := hrs
    subst hrs2
    have hmap : (List.mapM (fun nr : String × ExprProcess =>
        nr.2.evaluate D (respOverride (ExprProcess.mk e vn ps []) P nr.1) true)
        ([] : List (String × ExprProcess))) = some [] := rfl
    rw [hmap] at h1
    cases hf : (ExprProcess.mk e vn ps []).evaluate D P false with
    | none =>
      rw [hf] at h1
      simpa using h1
    | some w =>
      rw [hf] at h1
      simpa [applyResponses] using h1


/-! ## Claim C4 -/

lemma create_var_geom {d : SedimentDBLDomain} {name : String}
    {value : Option VarValue} {arr : List ℚ} {d2 : SedimentDBLDomain}
    (h : d.create_var name value = .ok (arr, d2)) :
    d2.cell_size = d.cell_size ∧ d2.sediment_length = d.sediment_length ∧
    d2.DBL_length = d.DBL_length ∧ d2.sediment_Ncells = d.sediment_Ncells ∧
    d2.DBL_Ncells = d.DBL_Ncells ∧ d2.idx_surface = d.idx_surface ∧
    d2.mesh = d.mesh := by
  unfold SedimentDBLDomain.create_var at h
  cases hm : d.mesh with
  | none => rw [hm] at h; exact Except.noConfusion h
  | some n =>
    rw [hm] at h
    simp only at h
    by_cases h1 : name = ""
    · rw [if_pos h1] at h; exact Except.noConfusion h
    · rw [if_neg h1] at h
      by_cases h2 : (alookup d.VARS name).isSome = true
      · rw [if_pos h2] at h; exact Except.noConfusion h
      · rw [if_neg h2] at h
        cases hv : value.getD (.scalar 0) with
        | scalar q =>
          rw [hv] at h
          simp only [Except.ok.injEq, Prod.mk.injEq] at h
          obtain ⟨h3, h4⟩ := h
          subst h4
          simp [hm]
        | arr xs =>
          rw [hv] at h
          simp only at h
          by_cases h5 : xs.length = n
          · rw [if_pos h5] at h
            simp only [Except.ok.injEq, Prod.mk.injEq] at h
            obtain ⟨h3, h4⟩ := h
            subst h4
            simp [hm]
          · rw [if_neg h5] at h
            exact Except.noConfusion h

lemma set_porosity_geom {d : SedimentDBLDomain} {p : ℚ} {arr : List ℚ}
    {d2 : SedimentDBLDomain}
    (h : d.set_porosity p = .ok (arr, d2)) :
    d2.cell_size = d.cell_size ∧ d2.sediment_length = d.sediment_length ∧
    d2.DBL_length = d.DBL_length ∧ d2.sediment_Ncells = d.sediment_Ncells ∧
    d2.DBL_Ncells = d.DBL_Ncells ∧ d2.idx_surface = d.idx_surface ∧
    d2.mesh = d.mesh := by
  unfold SedimentDBLDomain.set_porosity at h
  by_cases hg : ¬ (1/10 < p ∧ p < 9/10)
  · rw [if_pos hg] at h
    exact Except.noConfusion h
  · rw [if_neg hg] at h
    cases hl : alookup d.VARS "porosity" with
    | some arr0 =>
      rw [hl] at h
      simp only [Except.ok.injEq, Prod.mk.injEq] at h
      obtain ⟨h1, h2⟩ := h
      subst h2
      simp
    | none =>
      rw [hl] at h
      cases hc : d.create_var "porosity" (some (.scalar 1)) with
      | error s => rw [hc] at h; exact Except.noConfusion h
      | ok pr =>
        obtain ⟨arr1, d1⟩ := pr
        rw [hc] at h
        simp only [Except.bind, Except.ok.injEq, Prod.mk.injEq] at h
        obtain ⟨h1, h2⟩ := h
        subst h2
        have hg1 := create_var_geom hc
        simpa using hg1

/-- C4: for a successful domain construction the cell counts are the floors
of the length over cell size ratios, the stored lengths are re-derived from
the counts so that length = count times cell size holds exactly, and the
surface index equals the DBL cell count. -/
theorem c4_domain_geometry (cs sl dl p : ℚ) (d : SedimentDBLDomain)
    (h : SedimentDBLDomain.make cs sl dl p = .ok d) :
    d.cell_size = cs ∧
    d.sediment_Ncells = (⌊sl / cs⌋).toNat ∧
    d.DBL_Ncells = (⌊dl / cs⌋).toNat ∧
    d.sediment_length = (d.sediment_Ncells : ℚ) * d.cell_size ∧
    d.DBL_length = (d.DBL_Ncells : ℚ) * d.cell_size ∧
    d.idx_surface = d.DBL_Ncells := by
  unfold SedimentDBLDomain.make at h
  by_cases h1 : ¬ (0 < sl)
  · rw [if_pos h1] at h; exact Except.noConfusion h
  · rw [if_neg h1] at h
    by_cases h2 : ¬ (0 ≤ dl)
    · rw [if_pos h2] at h; exact Except.noConfusion h
    · rw [if_neg h2] at h
      by_cases h3 : cs = 0
      · rw [if_pos h3] at h; exact Except.noConfusion h
      · rw [if_neg h3] at h
        by_cases h4 : ¬ ((10 : ℚ) ≤ sl / cs)
        · rw [if_pos h4] at h; exact Except.noConfusion h
        · rw [if_neg h4] at h
          simp only at h
          cases hsp : SedimentDBLDomain.set_porosity
              { cell_size := cs
                sediment_length := ((⌊sl / cs⌋).toNat : ℚ) * cs
                DBL_length := ((⌊dl / cs⌋).toNat : ℚ) * cs
                sediment_Ncells := (⌊sl / cs⌋).toNat
                DBL_Ncells := (⌊dl / cs⌋).toNat
                domain_Ncells := (⌊sl / cs⌋).toNat + (⌊dl / cs⌋).toNat
                idx_surface := (⌊dl / cs⌋).toNat
                mesh := some ((⌊sl / cs⌋).toNat + (⌊dl / cs⌋).toNat)
                sediment_porosity := none
                VARS := [] } p with
          | error s =>
            rw [hsp] at h
            exact Except.noConfusion h
          | ok pr =>
            obtain ⟨arr1, d1⟩ := pr
            rw [hsp] at h
            simp only [Except.map, Except.ok.injEq] at h
            subst h
            have hg := set_porosity_geom hsp
            simp only at hg
            obtain ⟨g1, g2, g3, g4, g5, g6, g7⟩ := hg
            refine ⟨g1, g4, g5, ?_, ?_, ?_⟩
            · rw [g2, g4, g1]
            · rw [g3, g5, g1]
            · rw [g6, g5]

/-- C4 witness: cell size 0.1 mm, sediment 10 mm and DBL 1 mm give 100
sediment cells, 10 DBL cells and surface index 10, with lengths re-derived
exactly. -/
theorem c4_domain_geometry_witness :
    testDomain.sediment_Ncells = 100 ∧ testDomain.DBL_Ncells = 10 ∧
    testDomain.idx_surface = 10 ∧
    testDomain.sediment_length = (testDomain.sediment_Ncells : ℚ) * testDomain.cell_size := by
  have h := c4_domain_geometry (1/10) 10 1 (3/5) testDomain testDomain_make
  refine ⟨?_, ?_, ?_, h.2.2.2.1⟩
  · rw [h.2.1]; with_unfolding_all rfl
  · rw [h.2.2.1]; with_unfolding_all rfl
  · rw [h.2.2.2.2.2, h.2.2.1]; with_unfolding_all rfl


/-! ## Claim C5 -/

lemma alookup_append_of_left_none {α : Type} {xs ys : List (String × α)}
    {k : String} (h : alookup xs k = none) :
    alookup (xs ++ ys) k = alookup ys k := by
  induction xs with
  | nil => rfl
  | cons kv rest ih =>
    obtain ⟨k0, v0⟩ := kv
    by_cases hk : k0 = k
    · subst hk
      rw [alookup, if_pos rfl] at h
      exact Option.noConfusion h
    · rw [alookup, if_neg hk] at h
      rw [List.cons_append, alookup, if_neg hk]
      exact ih h

/-- C5: create_var fails without a mesh, with an empty name, or with an
already registered name; a successful call returns an array of the full cell
count, registers it under the name, and keeps registry names unique. -/
theorem c5_create_var_contract (d : SedimentDBLDomain) (nm : String)
    (v : Option VarValue) :
    (d.mesh = none → excOk (d.create_var nm v) = false) ∧
    (nm = "" → excOk (d.create_var nm v) = false) ∧
    ((alookup d.VARS nm).isSome = true → excOk (d.create_var nm v) = false) ∧
    (∀ (n : ℕ) (arr : List ℚ) (d2 : SedimentDBLDomain),
      d.mesh = some n → d.create_var nm v = .ok (arr, d2) →
      arr.length = n ∧ d2.VARS = d.VARS ++ [(nm, arr)] ∧
      alookup d2.VARS nm = some arr ∧
      ((d.VARS.map Prod.fst).Nodup → (d2.VARS.map Prod.fst).Nodup)) := by
  refine ⟨?_, ?_, ?_, ?_⟩
  · intro h
    unfold SedimentDBLDomain.create_var
    rw [h]
    rfl
  · intro h
    unfold SedimentDBLDomain.create_var
    cases hm : d.mesh with
    | none => rfl
    | some n =>
      simp only
      rw [if_pos h]
      rfl
  · intro h
    unfold SedimentDBLDomain.create_var
    cases hm : d.mesh with
    | none => rfl
    | some n =>
      simp only
      by_cases h1 : nm = ""
      · rw [if_pos h1]
        rfl
      · rw [if_neg h1, if_pos h]
        rfl
  · intro n arr d2 hm hok
    unfold SedimentDBLDomain.create_var at hok
    rw [hm] at hok
    simp only at hok
    by_cases h1 : nm = ""
    · rw [if_pos h1] at hok
      exact Except.noConfusion hok
    · rw [if_neg h1] at hok
      by_cases h2 : (alookup d.VARS nm).isSome = true
      · rw [if_pos h2] at hok
        exact Except.noConfusion hok
      · rw [if_neg h2] at hok
        have hnone : alookup d.VARS nm = none := by
          cases hl : alookup d.VARS nm with
          | none => rfl
          | some a => rw [hl] at h2; simp at h2
        have hnotmem : nm ∉ d.VARS.map Prod.fst := (alookup_eq_none _ _).mp hnone
        have main : arr.length = n ∧ d2.VARS = d.VARS ++ [(nm, arr)] := by
          cases hv : v.getD (.scalar 0) with
          | scalar q =>
            rw [hv] at hok
            simp only [Except.ok.injEq, Prod.mk.injEq] at hok
            obtain ⟨h3, h4⟩ := hok
            subst h3
            subst h4
            exact ⟨List.length_replicate .., rfl⟩
          | arr xs =>
            rw [hv] at hok
            simp only at hok
            by_cases h5 : xs.length = n
            · rw [if_pos h5] at hok
              simp only [Except.ok.injEq, Prod.mk.injEq] at hok
              obtain ⟨h3, h4⟩ := hok
              subst h3
              subst h4
              exact ⟨h5, rfl⟩
            · rw [if_neg h5] at hok
              exact Except.noConfusion hok
        obtain ⟨hlen, hvars⟩ := main
        refine ⟨hlen, hvars, ?_, ?_⟩
        · rw [hvars, alookup_append_of_left_none hnone, alookup, if_pos rfl]
        · intro hnd
          rw [hvars, List.map_append]
          simp only [List.map_cons, List.map_nil]
          rw [List.nodup_append]
          refine ⟨hnd, List.nodup_singleton nm, ?_⟩
          intro a ha hb
          rw [List.mem_singleton] at hb
          subst hb
          exact hnotmem ha

/-- The test domain extended with a scalar variable oxy broadcast to the 110
cells. -/
def testDomainOxy : SedimentDBLDomain :=
  { testDomain with VARS := testDomain.VARS ++ [("oxy", List.replicate 110 2)] }

/-- C5 witness: on the concrete test domain, creating oxy from the scalar 2
broadcasts to all 110 cells and registers it, and creating porosity again is
rejected. -/
theorem c5_create_var_contract_witness :
    excOk (testDomain.create_var "porosity" none) = false ∧
    (List.replicate 110 (2 : ℚ)).length = 110 ∧
    testDomainOxy.VARS = testDomain.VARS ++ [("oxy", List.replicate 110 2)] ∧
    alookup testDomainOxy.VARS "oxy" = some (List.replicate 110 2) := by
  have h := c5_create_var_contract testDomain "oxy" (some (.scalar 2))
  have hok : testDomain.create_var "oxy" (some (.scalar 2)) =
      .ok (List.replicate 110 2, testDomainOxy) := by with_unfolding_all rfl
  have h4 := h.2.2.2 110 (List.replicate 110 2) testDomainOxy rfl hok
  refine ⟨?_, h4.1, h4.2.1, h4.2.2.1⟩
  exact (c5_create_var_contract testDomain "porosity" none).2.2.1
    (by with_unfolding_all rfl)

/-! ## Claim C8 -/

/-- C8: set_porosity rejects any value outside the open interval (0.1, 0.9);
for a value inside it the porosity field becomes exactly 1.0 on every DBL
cell and the value on every sediment cell, and a later call with another
valid value succeeds as an update. -/
theorem c8_set_porosity_contract (d : SedimentDBLDomain) (pbad q q2 : ℚ)
    (arr : List ℚ)
    (hbad : ¬ (1/10 < pbad ∧ pbad < 9/10))
    (hq : 1/10 < q ∧ q < 9/10) (hq2 : 1/10 < q2 ∧ q2 < 9/10)
    (harr : alookup d.VARS "porosity" = some arr) :
    excOk (d.set_porosity pbad) = false ∧
    ∃ newArr d2, d.set_porosity q = .ok (newArr, d2) ∧
      newArr.length = arr.length ∧
      (∀ i, ∀ hi : i < newArr.length,
        newArr.get ⟨i, hi⟩ = if i < d.idx_surface then 1 else q) ∧
      alookup d2.VARS "porosity" = some newArr ∧
      excOk (d2.set_porosity q2) = true := by
  constructor
  · unfold SedimentDBLDomain.set_porosity
    rw [if_pos hbad]
    rfl
  · refine ⟨applyPorosity d.idx_surface q arr,
      { d with sediment_porosity := some q,
               VARS := setVar d.VARS "porosity" (applyPorosity d.idx_surface q arr) },
      ?_, ?_, ?_, ?_, ?_⟩
    · unfold SedimentDBLDomain.set_porosity
      rw [if_neg (not_not_intro hq), harr]
    · simp [applyPorosity]
    · intro i hi
      simp only [applyPorosity] at hi ⊢
      rw [List.get_eq_getElem]
      simp
    · exact alookup_setVar_self harr _
    · unfold SedimentDBLDomain.set_porosity
      rw [if_neg (not_not_intro hq2)]
      simp only
      rw [alookup_setVar_self harr _]
      rfl

/-- C8 witness: on the test domain 0.95 is rejected, 0.5 is accepted and a
second update to 0.2 succeeds. -/
theorem c8_set_porosity_contract_witness :
    excOk (testDomain.set_porosity (95/100)) = false ∧
    excOk ((testDomain.set_porosity (1/2)).bind
      (fun pr => pr.2.set_porosity (1/5))) = true := by
  have h := c8_set_porosity_contract testDomain (95/100) (1/2) (1/5)
    testPorosityArr (by norm_num) (by norm_num) (by norm_num) rfl
  obtain ⟨na, d2, hok, hlen, hvals, hlook, hsec⟩ := h.2
  refine ⟨h.1, ?_⟩
  rw [hok]
  simpa [Except.bind] using hsec


/-! ## Claim C7 -/

def SetupEvent.isConstrained : SetupEvent → Bool
  | .constrained _ _ => true
  | _ => false

lemma applyConstraints_ok {l : List (String × CVal)}
    (h : ∀ lv ∈ l, validLocs.contains lv.1 = true) :
    applyConstraints l = .ok (l.map (fun lv => SetupEvent.constrained lv.1 lv.2)) := by
  induction l with
  | nil => rfl
  | cons lv rest ih =>
    obtain ⟨loc, val⟩ := lv
    rw [applyConstraints, if_pos (h (loc, val) (List.mem_cons_self ..)),
        ih (fun x hx => h x (List.mem_cons_of_mem _ hx))]
    rfl

lemma cbs_false_of_no_seeded {l : List SetupEvent}
    (h : l.any SetupEvent.isSeeded = false) :
    constrainedBeforeSeeded l = false := by
  induction l with
  | nil => rfl
  | cons e rest ih =>
    rw [List.any_cons, Bool.or_eq_false_iff] at h
    cases e with
    | constrained loc v =>
      rw [constrainedBeforeSeeded, h.2, ih h.2]
      rfl
    | created a => exact ih h.2
    | seeded a => exact ih h.2
    | oldUpdated a => exact ih h.2
    | warned a b => exact ih h.2

lemma cbs_append_false {l1 l2 : List SetupEvent}
    (h1 : l1.any SetupEvent.isConstrained = false)
    (h2 : l2.any SetupEvent.isSeeded = false) :
    constrainedBeforeSeeded (l1 ++ l2) = false := by
  induction l1 with
  | nil => exact cbs_false_of_no_seeded h2
  | cons e rest ih =>
    rw [List.any_cons, Bool.or_eq_false_iff] at h1
    cases e with
    | constrained loc v => exact absurd h1.1 (by simp [SetupEvent.isConstrained])
    | created a => exact ih h1.2
    | seeded a => exact ih h1.2
    | oldUpdated a => exact ih h1.2
    | warned a b => exact ih h1.2

lemma warnEvents_no_seeded (c : List (String × CVal)) :
    (warnEventsOf c).any SetupEvent.isSeeded = false := by
  rw [List.any_eq_false]
  intro e he
  obtain ⟨pq, hpq, hg⟩ := List.mem_filterMap.mp he
  by_cases hc : ((alookup c pq.1).isSome && (alookup c pq.2).isSome) = true
  · rw [if_pos hc] at hg
    cases hg
    simp [SetupEvent.isSeeded]
  · rw [if_neg hc] at hg
    exact Option.noConfusion hg

lemma constrEvents_no_seeded (c : List (String × CVal)) :
    ((c.map (fun lv => SetupEvent.constrained lv.1 lv.2)).any
      SetupEvent.isSeeded) = false := by
  rw [List.any_eq_false]
  intro e he
  obtain ⟨lv, hlv, hg⟩ := List.mem_map.mp he
  cases hg
  simp [SetupEvent.isSeeded]

lemma cbs_cons_created (a : List ℚ) (l : List SetupEvent) :
    constrainedBeforeSeeded (SetupEvent.created a :: l) =
      constrainedBeforeSeeded l := rfl

lemma seedStep_no_constrained (seed : Option SeedProfile) (hasOld : Bool)
    (arr : List ℚ) :
    (seedStepOf seed hasOld arr).2.any SetupEvent.isConstrained = false := by
  cases seed with
  | none => rfl
  | some sp =>
    cases sp with
    | linear s t =>
      cases hasOld with
      | false => simp [seedStepOf, SetupEvent.isConstrained]
      | true => simp [seedStepOf, SetupEvent.isConstrained]

/-- C7: setup fails with a RuntimeError when no domain is attached; otherwise
it creates the bound array, seeds it (when a seed spec is present) strictly
before any constraint is applied, snapshots the freshly seeded value as the
old value when previous-value retention is requested, warns without failing
when both top and dbl or both bottom and sediment are constrained, and
applies every configured constraint via a constrain call. -/
theorem c7_variable_setup (v : MVariable) (dom dom2 : SedimentDBLDomain)
    (arr : List ℚ)
    (hdom : v._domain = some dom)
    (hcv : dom.create_var v.name v.create_params.value = .ok (arr, dom2))
    (hlocs : ∀ lv ∈ v.constraints, validLocs.contains lv.1 = true) :
    (∀ w : MVariable, w._domain = none → excOk w.setup = false) ∧
    (∃ st tr, v.setup = .ok ({ v with _domain := some dom2, var := some st }, tr) ∧
      (v.seed_params = none → st.value = arr) ∧
      (∀ s t, v.seed_params = some (.linear s t) →
        st.value = linspace s t arr.length) ∧
      (∀ s t, v.seed_params = some (.linear s t) → v.create_params.hasOld = true →
        st.old = some (linspace s t arr.length)) ∧
      constrainedBeforeSeeded tr = false ∧
      ((alookup v.constraints "top").isSome = true →
        (alookup v.constraints "dbl").isSome = true →
        SetupEvent.warned "top" "dbl" ∈ tr) ∧
      ((alookup v.constraints "bottom").isSome = true →
        (alookup v.constraints "sediment").isSome = true →
        SetupEvent.warned "bottom" "sediment" ∈ tr) ∧
      (∀ lv ∈ v.constraints, SetupEvent.constrained lv.1 lv.2 ∈ tr)) := by
  constructor
  · intro w hw
    unfold MVariable.setup
    rw [hw]
    rfl
  · refine ⟨(seedStepOf v.seed_params v.create_params.hasOld arr).1,
      SetupEvent.created arr ::
        ((seedStepOf v.seed_params v.create_params.hasOld arr).2 ++
          (warnEventsOf v.constraints ++
            v.constraints.map (fun lv => SetupEvent.constrained lv.1 lv.2))),
      ?_, ?_, ?_, ?_, ?_, ?_, ?_, ?_⟩
    · unfold MVariable.setup
      rw [hdom]
      dsimp only
      rw [hcv]
      dsimp only [Except.bind]
      rw [applyConstraints_ok hlocs]
      rfl
    · intro hseed
      rw [hseed]
      rfl
    · intro s t hseed
      rw [hseed]
      cases hho : v.create_params.hasOld with
      | false => simp [seedStepOf]
      | true => simp [seedStepOf]
    · intro s t hseed hho
      rw [hseed]
      simp [seedStepOf, hho]
    · rw [cbs_cons_created]
      apply cbs_append_false (seedStep_no_constrained ..)
      rw [List.any_append, warnEvents_no_seeded, constrEvents_no_seeded]
      rfl
    · intro h1 h2
      apply List.mem_cons_of_mem
      apply List.mem_append_right
      apply List.mem_append_left
      apply List.mem_filterMap.mpr
      refine ⟨("top", "dbl"), by simp [invalidPairs], ?_⟩
      rw [if_pos (by rw [h1, h2]; rfl)]
    · intro h1 h2
      apply List.mem_cons_of_mem
      apply List.mem_append_right
      apply List.mem_append_left
      apply List.mem_filterMap.mpr
      refine ⟨("bottom", "sediment"), by simp [invalidPairs], ?_⟩
      rw [if_pos (by rw [h1, h2]; rfl)]
    · intro lv hlv
      apply List.mem_cons_of_mem
      apply List.mem_append_right
      apply List.mem_append_right
      exact List.mem_map.mpr ⟨lv, hlv, rfl⟩

/-- A concrete variable configured on the test domain: scalar create value 2
with old-value retention, a linear seed, and top plus dbl constraints. -/
def testVar : MVariable :=
  { name := "oxy"
    create_params := { value := some (.scalar 2), hasOld := true }
    constraints := [("top", .num 1), ("dbl", .num 0)]
    seed_params := some (.linear 0 1)
    _domain := some testDomain
    var := none }

/-- C7 witness: the concrete variable sets up successfully on the attached
test domain, and the same variable without a domain fails. -/
theorem c7_variable_setup_witness :
    excOk testVar.setup = true ∧
    excOk (MVariable.setup { testVar with _domain := none }) = false := by
  have h := c7_variable_setup testVar testDomain testDomainOxy
    (List.replicate 110 2) rfl (by with_unfolding_all rfl)
    (by with_unfolding_all decide)
  obtain ⟨st, tr, hok, _⟩ := h.2
  constructor
  · rw [hok]
    rfl
  · exact h.1 { testVar with _domain := none } rfl


end Microbenthos
